import Mathlib

/-!
Verification of the go-notification-service core against its specification.

The Go sources are shallowly embedded as pure Lean functions:

* `hashToken`               — internal/storage/firestore/tokenstore.go (SHA-256 hex digest)
* `registerFCM` and friends — FirestoreStore write operations on an association-list
                              model of the `users/{user}/devices/{hash}` layout
* `storeFetch`              — FirestoreStore.Fetch over an explicit iterator stream
* `fcmDispatch`             — internal/platform/fcm/fcmdispatcher.go Dispatch
* `webDispatch`             — internal/platform/web/webdispatcher.go Dispatch
* `processMessage`          — internal/pipeline/processor.go handler (current generation)
* `notificationRequestTransformer` — internal/pipeline/transformer.go
* `cachedRegisterFCM` and friends  — internal/storage/cache/tokenstore.go decorator
* `unregisterFCMHandler`    — internal/api TokenAPI.UnregisterFCM

External collaborators (Firestore client, Redis, FCM, web-push endpoints,
JSON codecs of the platform library) are modelled by explicit outcome
parameters, so each embedded function is total and executable.
-/

set_option maxRecDepth 100000

namespace NotificationService

/-! ## SHA-256 over Nat, mod 2^32 (crypto/sha256 as used by hashToken) -/

def w32 (n : Nat) : Nat := n % 4294967296

def rotr (x n : Nat) : Nat := w32 ((x >>> n) ||| (x <<< (32 - n)))

def shr (x n : Nat) : Nat := x >>> n

def bxor (a b : Nat) : Nat := a ^^^ b

def shaK : List Nat :=
  [1116352408, 1899447441, 3049323471, 3921009573, 961987163, 1508970993,
   2453635748, 2870763221, 3624381080, 310598401, 607225278, 1426881987,
   1925078388, 2162078206, 2614888103, 3248222580, 3835390401, 4022224774,
   264347078, 604807628, 770255983, 1249150122, 1555081692, 1996064986,
   2554220882, 2821834349, 2952996808, 3210313671, 3336571891, 3584528711,
   113926993, 338241895, 666307205, 773529912, 1294757372, 1396182291,
   1695183700, 1986661051, 2177026350, 2456956037, 2730485921, 2820302411,
   3259730800, 3345764771, 3516065817, 3600352804, 4094571909, 275423344,
   430227734, 506948616, 659060556, 883997877, 958139571, 1322822218,
   1537002063, 1747873779, 1955562222, 2024104815, 2227730452, 2361852424,
   2428436474, 2756734187, 3204031479, 3329325298]

/-- message schedule: extend the 16 block words to 64 words -/
def shaSchedule (ws : Array Nat) (i : Nat) (fuel : Nat) : Array Nat :=
  match fuel with
  | 0 => ws
  | fuel + 1 =>
    if i ≥ 64 then ws
    else
      let w15 := ws.getD (i - 15) 0
      let w2 := ws.getD (i - 2) 0
      let s0 := bxor (bxor (rotr w15 7) (rotr w15 18)) (shr w15 3)
      let s1 := bxor (bxor (rotr w2 17) (rotr w2 19)) (shr w2 10)
      let w := w32 (ws.getD (i - 16) 0 + s0 + ws.getD (i - 7) 0 + s1)
      shaSchedule (ws.push w) (i + 1) fuel

structure ShaState where
  a : Nat
  b : Nat
  c : Nat
  d : Nat
  e : Nat
  f : Nat
  g : Nat
  h : Nat
deriving DecidableEq

def shaRound (st : ShaState) (ki wi : Nat) : ShaState :=
  let s1 := bxor (bxor (rotr st.e 6) (rotr st.e 11)) (rotr st.e 25)
  let ch := bxor (st.e &&& st.f) ((bxor st.e 0xffffffff) &&& st.g)
  let t1 := w32 (st.h + s1 + ch + ki + wi)
  let s0 := bxor (bxor (rotr st.a 2) (rotr st.a 13)) (rotr st.a 22)
  let maj := bxor (bxor (st.a &&& st.b) (st.a &&& st.c)) (st.b &&& st.c)
  let t2 := w32 (s0 + maj)
  ⟨w32 (t1 + t2), st.a, st.b, st.c, w32 (st.d + t1), st.e, st.f, st.g⟩

def shaRounds (st : ShaState) : List (Nat × Nat) → ShaState
  | [] => st
  | (ki, wi) :: rest => shaRounds (shaRound st ki wi) rest

def shaCompress (h0 : ShaState) (block : List Nat) : ShaState :=
  let ws0 : Array Nat := ⟨block⟩
  let ws := shaSchedule ws0 16 64
  let st := shaRounds h0 (shaK.zip ws.toList)
  ⟨w32 (h0.a + st.a), w32 (h0.b + st.b), w32 (h0.c + st.c), w32 (h0.d + st.d),
   w32 (h0.e + st.e), w32 (h0.f + st.f), w32 (h0.g + st.g), w32 (h0.h + st.h)⟩

def shaInit : ShaState :=
  ⟨1779033703, 3144134277, 1013904242, 2773480762, 1359893119, 2600822924, 528734635, 1541459225⟩

/-- pad a byte list to a multiple of 64 bytes, SHA-256 style -/
def shaPad (msg : List Nat) : List Nat :=
  let len := msg.length
  let bitLen := len * 8
  let zeros := (55 - len % 64 + 64) % 64
  msg ++ [0x80] ++ List.replicate zeros 0 ++
    [(bitLen >>> 56) % 256, (bitLen >>> 48) % 256, (bitLen >>> 40) % 256, (bitLen >>> 32) % 256,
     (bitLen >>> 24) % 256, (bitLen >>> 16) % 256, (bitLen >>> 8) % 256, bitLen % 256]

/-- group bytes into 32-bit big-endian words -/
def shaWords : List Nat → List Nat
  | b0 :: b1 :: b2 :: b3 :: rest => (b0 <<< 24 ||| b1 <<< 16 ||| b2 <<< 8 ||| b3) :: shaWords rest
  | _ => []

/-- split words into blocks of 16 (fuel-driven so the kernel can reduce it) -/
def shaBlocksAux : Nat → List Nat → List (List Nat)
  | 0, _ => []
  | fuel + 1, ws =>
    if ws.length < 16 then (if ws = [] then [] else [ws])
    else ws.take 16 :: shaBlocksAux fuel (ws.drop 16)

def shaBlocks (ws : List Nat) : List (List Nat) := shaBlocksAux ws.length ws

def sha256Digest (msg : List Nat) : ShaState :=
  (shaBlocks (shaWords (shaPad msg))).foldl shaCompress shaInit

def hexDigit (n : Nat) : Char :=
  if n < 10 then Char.ofNat (48 + n) else Char.ofNat (87 + n)

def hexByte (n : Nat) : List Char := [hexDigit (n / 16 % 16), hexDigit (n % 16)]

def hexWord (n : Nat) : List Char :=
  hexByte (n >>> 24 % 256) ++ hexByte (n >>> 16 % 256) ++ hexByte (n >>> 8 % 256) ++ hexByte (n % 256)

/-- UTF-8 encoding of a code point, as Go converts string to bytes -/
def utf8Bytes (c : Nat) : List Nat :=
  if c < 0x80 then [c]
  else if c < 0x800 then [0xC0 ||| c >>> 6, 0x80 ||| (c &&& 0x3F)]
  else if c < 0x10000 then [0xE0 ||| c >>> 12, 0x80 ||| ((c >>> 6) &&& 0x3F), 0x80 ||| (c &&& 0x3F)]
  else [0xF0 ||| c >>> 18, 0x80 ||| ((c >>> 12) &&& 0x3F), 0x80 ||| ((c >>> 6) &&& 0x3F), 0x80 ||| (c &&& 0x3F)]

def strBytes (s : String) : List Nat := (s.data.map (fun c => utf8Bytes c.toNat)).flatten

/-- hashToken from internal/storage/firestore/tokenstore.go:
    hex encoding of the SHA-256 digest of the token bytes -/
def hashToken (t : String) : String :=
  let h := sha256Digest (strBytes t)
  String.mk (hexWord h.a ++ hexWord h.b ++ hexWord h.c ++ hexWord h.d ++
             hexWord h.e ++ hexWord h.f ++ hexWord h.g ++ hexWord h.h)

/-! ## Data model (go-platform notification types, as used by this service) -/

/-- Error values: Go `error` modelled by its message string. -/
abbrev Err := String

/-- WebPushSubscription: endpoint plus two opaque binary key buffers. -/
structure WebPushSubscription where
  endpoint : String
  p256dh : List Nat
  auth : List Nat
deriving DecidableEq

/-- NotificationRequest: the resolved recipient with its two channel buckets. -/
structure NotificationRequest where
  recipientID : String
  fcmTokens : List String
  webSubscriptions : List WebPushSubscription
deriving DecidableEq

/-! ## Firestore device registry (internal/storage/firestore/tokenstore.go)

The persistence layout users/{user}/devices/{docID} is modelled as an
association list keyed by (user canonical string, document id).  Firestore
document Set is an upsert and Delete removes the document, and document ids
are unique within a collection, which the helpers below reflect. -/

/-- deviceRecord: internal DB representation of one stored device row. -/
structure DeviceRecord where
  platform : String
  token : String
  webSubscription : Option WebPushSubscription
  updatedAt : Nat
deriving DecidableEq

abbrev DocKey := String × String

abbrev DB := List (DocKey × DeviceRecord)

/-- Firestore document Set: upsert at a document key. -/
def dbSet (db : DB) (k : DocKey) (v : DeviceRecord) : DB :=
  db.filter (fun e => !decide (e.1 = k)) ++ [(k, v)]

/-- Firestore document Delete: idempotent removal of a document key. -/
def dbDelete (db : DB) (k : DocKey) : DB :=
  db.filter (fun e => !decide (e.1 = k))

def dbLookup (db : DB) (k : DocKey) : Option DeviceRecord :=
  (db.find? (fun e => decide (e.1 = k))).map (fun e => e.2)

/-- all rows stored at a document key (singleton or empty in any reachable DB) -/
def rowsForKey (db : DB) (k : DocKey) : DB :=
  db.filter (fun e => decide (e.1 = k))

/-- all rows under one user document (the devices sub-collection) -/
def userDocs (db : DB) (u : String) : DB :=
  db.filter (fun e => decide (e.1.1 = u))

/-- FirestoreStore.RegisterFCM: upsert at (user, hash(token)). -/
def registerFCM (db : DB) (u t : String) (ts : Nat) : DB :=
  dbSet db (u, hashToken t) ⟨"fcm", t, none, ts⟩

/-- FirestoreStore.UnregisterFCM: delete at (user, hash(token)). -/
def unregisterFCM (db : DB) (u t : String) : DB :=
  dbDelete db (u, hashToken t)

/-- FirestoreStore.RegisterWeb: upsert at (user, hash(endpoint)). -/
def registerWeb (db : DB) (u : String) (sub : WebPushSubscription) (ts : Nat) : DB :=
  dbSet db (u, hashToken sub.endpoint) ⟨"web", "", some sub, ts⟩

/-- FirestoreStore.UnregisterWeb: delete at (user, hash(endpoint)). -/
def unregisterWeb (db : DB) (u endpoint : String) : DB :=
  dbDelete db (u, hashToken endpoint)

/-! FirestoreStore.Fetch iterates the devices collection.  The external
iterator is modelled as an explicit stream: each step yields a document
(whose DataTo decoding may fail, modelled by `none`) or an iteration
error. -/

inductive FetchItem where
  | iterErr (e : Err)
  | doc (dataTo : Option DeviceRecord)
deriving DecidableEq

/-- the loop body of FirestoreStore.Fetch: sorting-hat bucket logic. -/
def fetchLoop (acc : NotificationRequest) : List FetchItem → Except Err NotificationRequest
  | [] => .ok acc
  | .iterErr e :: _ => .error ("firestore iteration failed: " ++ e)
  | .doc none :: rest => fetchLoop acc rest
  | .doc (some record) :: rest =>
    if record.platform = "web" && record.webSubscription.isSome then
      fetchLoop ⟨acc.recipientID, acc.fcmTokens,
                 acc.webSubscriptions ++ [record.webSubscription.getD ⟨"", [], []⟩]⟩ rest
    else if record.token ≠ "" then
      fetchLoop ⟨acc.recipientID, acc.fcmTokens ++ [record.token], acc.webSubscriptions⟩ rest
    else
      fetchLoop acc rest

/-- FirestoreStore.Fetch: empty buckets initialised, then the iterator loop. -/
def storeFetch (user : String) (items : List FetchItem) : Except Err NotificationRequest :=
  fetchLoop ⟨user, [], []⟩ items

/-- a decoded row that the Fetch loop places in the web bucket -/
def isWebRow (r : DeviceRecord) : Bool :=
  r.platform = "web" && r.webSubscription.isSome

/-- the decoded rows of a fetch stream (DataTo failures dropped) -/
def docsOf (items : List FetchItem) : List DeviceRecord :=
  items.filterMap (fun i => match i with
    | .doc (some r) => some r
    | _ => none)

/-- the mobile bucket Fetch computes from a stream without iteration errors -/
def fcmBucket (items : List FetchItem) : List String :=
  ((docsOf items).filter (fun r => !isWebRow r && decide (r.token ≠ ""))).map (fun r => r.token)

/-- the web bucket Fetch computes from a stream without iteration errors -/
def webBucket (items : List FetchItem) : List WebPushSubscription :=
  (docsOf items).filterMap (fun r => if isWebRow r then r.webSubscription else none)

/-- a stream containing no iteration error -/
def cleanStream (items : List FetchItem) : Prop :=
  ∀ e, FetchItem.iterErr e ∉ items

/-- Fetch over the DB model: the stored rows of the user, decoded cleanly. -/
def firestoreFetch (db : DB) (u : String) : Except Err NotificationRequest :=
  storeFetch u ((userDocs db u).map (fun e => FetchItem.doc (some e.2)))

/-! ## FCM dispatcher (internal/platform/fcm/fcmdispatcher.go)

The Firebase client is modelled by the outcome of SendEachForMulticast:
either a transport-level error (classified by messaging.IsInvalidArgument)
or a batch response carrying one per-token SendResponse each. -/

inductive FCMErrClass where
  | invalidArgument
  | notRegistered
  | other
deriving DecidableEq

/-- one per-token entry of messaging.BatchResponse.Responses -/
structure FCMSendResponse where
  success : Bool
  errClass : FCMErrClass
deriving DecidableEq

structure FCMBatchResponse where
  responses : List FCMSendResponse
deriving DecidableEq

/-- a transport-level error from SendEachForMulticast -/
structure FCMTransportErr where
  isInvalidArgument : Bool
  msg : String
deriving DecidableEq

/-- the fatal classification used in the Dispatch loop:
    messaging.IsInvalidArgument or messaging.IsRegistrationTokenNotRegistered -/
def fcmFatalResp (r : FCMSendResponse) : Bool :=
  decide (r.errClass = .invalidArgument) || decide (r.errClass = .notRegistered)

def fcmFailureCount (br : FCMBatchResponse) : Nat :=
  (br.responses.filter (fun r => !r.success)).length

def fcmSuccessCount (br : FCMBatchResponse) : Nat :=
  (br.responses.filter (fun r => r.success)).length

/-- the per-token classification loop of Dispatch: collects fatally invalid
    tokens and counts retryable (transient) failures, in response order. -/
def fcmClassify : List (String × FCMSendResponse) → List String × Nat
  | [] => ([], 0)
  | (t, resp) :: rest =>
    let acc := fcmClassify rest
    if resp.success then acc
    else if fcmFatalResp resp then (t :: acc.1, acc.2)
    else (acc.1, acc.2 + 1)

/-- Dispatcher.Dispatch for FCM: returns (receipt, invalidTokens, error). -/
def fcmDispatch (tokens : List String)
    (sendResult : Except FCMTransportErr FCMBatchResponse) :
    String × List String × Option Err :=
  if tokens.length = 0 then ("skipped: no tokens", [], none)
  else
    match sendResult with
    | .error te =>
      if te.isInvalidArgument then ("skipped: invalid_argument", [], none)
      else ("", [], some ("fcm transport failed: " ++ te.msg))
    | .ok br =>
      let classified :=
        if fcmFailureCount br > 0 then fcmClassify (tokens.zip br.responses) else ([], 0)
      let invalidTokens := classified.1
      let retryableErrors := classified.2
      if retryableErrors > 0 then
        ("", [], some ("batch had " ++ toString retryableErrors ++ " retryable errors"))
      else
        ("success:" ++ toString (fcmSuccessCount br) ++ " invalid:" ++ toString invalidTokens.length,
         invalidTokens, none)

/-! ## Web dispatcher (internal/platform/web/webdispatcher.go)

Each webpush.SendNotification call is modelled by an outcome per
subscription: a transport error or an HTTP response status. -/

inductive WebSendOutcome where
  | transportErr (e : Err)
  | response (status : Nat)
deriving DecidableEq

/-- the per-subscription loop of web Dispatch:
    returns (invalidSubs, successCount, failureCount) in iteration order. -/
def webDispatchLoop (send : WebPushSubscription → WebSendOutcome) :
    List WebPushSubscription → List WebPushSubscription × Nat × Nat
  | [] => ([], 0, 0)
  | sub :: rest =>
    let acc := webDispatchLoop send rest
    match send sub with
    | .transportErr _ => (acc.1, acc.2.1, acc.2.2 + 1)
    | .response st =>
      if st = 201 then (acc.1, acc.2.1 + 1, acc.2.2)
      else if st = 410 ∨ st = 404 then (sub :: acc.1, acc.2.1, acc.2.2 + 1)
      else (acc.1, acc.2.1, acc.2.2 + 1)

/-- Dispatcher.Dispatch for web push: payload marshalling happens first and
    is the only error source; per-endpoint outcomes never fail the call. -/
def webDispatch (subs : List WebPushSubscription)
    (send : WebPushSubscription → WebSendOutcome)
    (marshalResult : Except Err Unit) :
    String × List WebPushSubscription × Option Err :=
  match marshalResult with
  | .error e => ("", [], some ("failed to marshal payload: " ++ e))
  | .ok _ =>
    let r := webDispatchLoop send subs
    ("success:" ++ toString r.2.1 ++ " invalid:" ++ toString r.1.length ++
       " total_fail:" ++ toString r.2.2,
     r.1, none)

/-- outcomes that the web Dispatch loop treats as fatally dead endpoints -/
def webDead (o : WebSendOutcome) : Bool :=
  match o with
  | .response st => decide (st = 410 ∨ st = 404)
  | .transportErr _ => false

/-- outcomes the web Dispatch loop counts as success (201 Created) -/
def webCreated (o : WebSendOutcome) : Bool :=
  match o with
  | .response st => decide (st = 201)
  | .transportErr _ => false

/-! ## Pipeline handler (internal/pipeline/processor.go, current generation)

The handler environment carries the Fetch outcome and the two injected
dispatcher behaviours; the trace records which dispatchers were invoked,
which self-healing unregisters were issued, and the handler result. -/

structure ProcEnv where
  fetchResult : Except Err NotificationRequest
  fcmDispatch : List String → String × List String × Option Err
  webDispatch : List WebPushSubscription → String × List WebPushSubscription × Option Err

structure ProcTrace where
  fcmInvoked : Bool
  webInvoked : Bool
  unregFCMCalls : List String
  unregWebCalls : List String
  result : Option Err

/-- Path B of the handler: web dispatch with self-healing by endpoint. -/
def procWebPath (env : ProcEnv) (req : NotificationRequest)
    (fcmInvoked : Bool) (unregF : List String) : ProcTrace :=
  if req.webSubscriptions.length > 0 then
    let r := env.webDispatch req.webSubscriptions
    ⟨fcmInvoked, true, unregF, (r.2.1).map (fun s => s.endpoint), r.2.2⟩
  else
    ⟨fcmInvoked, false, unregF, [], none⟩

/-- NewProcessor handler body: fetch, then path A (FCM) with self-healing
    and early return on a retryable error, then path B (web). -/
def processMessage (env : ProcEnv) : ProcTrace :=
  match env.fetchResult with
  | .error e => ⟨false, false, [], [], some e⟩
  | .ok req =>
    if req.fcmTokens.length > 0 then
      let r := env.fcmDispatch req.fcmTokens
      match r.2.2 with
      | some e => ⟨true, false, r.2.1, [], some e⟩
      | none => procWebPath env req true r.2.1
    else
      procWebPath env req false []

/-! ## Decode stage (internal/pipeline/transformer.go)

json.Unmarshal into the platform NotificationRequest (an external codec
that also canonicalizes the recipient URN) is modelled by its outcome. -/

/-- NotificationRequestTransformer: returns (request, skip, error). -/
def notificationRequestTransformer (msgID : String)
    (decodeResult : Except Err NotificationRequest) :
    Option NotificationRequest × Bool × Option Err :=
  match decodeResult with
  | .error e =>
    (none, true,
     some ("failed to unmarshal notification request from message " ++ msgID ++ ": " ++ e))
  | .ok req => (some req, false, none)

/-! ## Cache decorator (internal/storage/cache/tokenstore.go)

The Redis client is modelled by an association list plus injected outcomes
for the store write and the cache delete. -/

abbrev CState := List (String × NotificationRequest)

def cacheKey (u : String) : String := "notify:tokens:" ++ u

def cacheGet (c : CState) (k : String) : Option NotificationRequest :=
  (c.find? (fun e => decide (e.1 = k))).map (fun e => e.2)

def cacheSet (c : CState) (k : String) (v : NotificationRequest) : CState :=
  c.filter (fun e => !decide (e.1 = k)) ++ [(k, v)]

def cacheDel (c : CState) (k : String) : CState :=
  c.filter (fun e => !decide (e.1 = k))

/-- outcome of one cache-decorated registry write -/
structure WriteResult where
  db : DB
  cache : CState
  err : Option Err
  delCalled : Bool
deriving DecidableEq

/-- the shared write-path shape: store write first, then invalidate.
    storeErr/delErr inject the external failure modes; on a failed delete
    the cache contents are left as they were. -/
def cachedWrite (db newDb : DB) (c : CState) (u : String)
    (storeErr delErr : Option Err) : WriteResult :=
  match storeErr with
  | some e => ⟨db, c, some e, false⟩
  | none =>
    match delErr with
    | some e => ⟨newDb, c, some e, true⟩
    | none => ⟨newDb, cacheDel c (cacheKey u), none, true⟩

/-- CachedTokenStore.RegisterFCM -/
def cachedRegisterFCM (db : DB) (c : CState) (u t : String) (ts : Nat)
    (storeErr delErr : Option Err) : WriteResult :=
  cachedWrite db (registerFCM db u t ts) c u storeErr delErr

/-- CachedTokenStore.RegisterWeb -/
def cachedRegisterWeb (db : DB) (c : CState) (u : String) (sub : WebPushSubscription) (ts : Nat)
    (storeErr delErr : Option Err) : WriteResult :=
  cachedWrite db (registerWeb db u sub ts) c u storeErr delErr

/-- CachedTokenStore.UnregisterFCM -/
def cachedUnregisterFCM (db : DB) (c : CState) (u t : String)
    (storeErr delErr : Option Err) : WriteResult :=
  cachedWrite db (unregisterFCM db u t) c u storeErr delErr

/-- CachedTokenStore.UnregisterWeb -/
def cachedUnregisterWeb (db : DB) (c : CState) (u endpoint : String)
    (storeErr delErr : Option Err) : WriteResult :=
  cachedWrite db (unregisterWeb db u endpoint) c u storeErr delErr

/-- CachedTokenStore.Fetch: read-aside with fire-and-forget population.
    A cache miss or cache error both fall through to the real store. -/
def cachedFetch (db : DB) (c : CState) (u : String) :
    Except Err NotificationRequest × CState :=
  match cacheGet c (cacheKey u) with
  | some cached => (.ok cached, c)
  | none =>
    match firestoreFetch db u with
    | .error e => (.error e, c)
    | .ok fresh => (.ok fresh, cacheSet c (cacheKey u) fresh)

/-! ## Token HTTP API (internal/api, current generation)

The auth middleware and the JSON decoder are modelled by their outcomes;
the handler result is (HTTP status, whether the store op was invoked). -/

structure RegisterFCMRequest where
  token : String
deriving DecidableEq

/-- TokenAPI.UnregisterFCM: a store error is logged but NOT surfaced; the
    handler writes 204 whenever auth and JSON decoding succeed. -/
def unregisterFCMHandler (auth : Option String)
    (body : Except Err RegisterFCMRequest) (storeErr : Option Err) : Nat × Bool :=
  match auth with
  | none => (401, false)
  | some _ =>
    match body with
    | .error _ => (400, false)
    | .ok _ =>
      -- api.Store.UnregisterFCM is called here; its error is only logged
      (204, true)

/-! ## Register/unregister sequences on one (user, endpoint)

For the convergence claim, an operation sequence on a fixed user and a
fixed channel identifier s (the mobile token, or the web endpoint) is
folded over the store. -/

inductive RegOp where
  | regFCM (ts : Nat)
  | unregFCM
  | regWeb (p256dh auth : List Nat) (ts : Nat)
  | unregWeb
deriving DecidableEq

def applyOp (db : DB) (u s : String) : RegOp → DB
  | .regFCM ts => registerFCM db u s ts
  | .unregFCM => unregisterFCM db u s
  | .regWeb p a ts => registerWeb db u ⟨s, p, a⟩ ts
  | .unregWeb => unregisterWeb db u s

def applyOps (db : DB) (u s : String) (ops : List RegOp) : DB :=
  ops.foldl (fun d op => applyOp d u s op) db

/-- the row that one operation leaves at its own document key -/
def opRecord (s : String) : RegOp → Option DeviceRecord
  | .regFCM ts => some ⟨"fcm", s, none, ts⟩
  | .unregFCM => none
  | .regWeb p a ts => some ⟨"web", "", some ⟨s, p, a⟩, ts⟩
  | .unregWeb => none

/-! ## Concrete example inputs used by counterexamples and witnesses -/

/-- a handler environment where the recipient has one token in each bucket
    and the mobile dispatcher reports a transient (retryable) failure -/
def exEnvC1 : ProcEnv :=
  ⟨.ok ⟨"urn:x:user:A", ["t1"], [⟨"https://push.example/abc", [1], [2]⟩]⟩,
   fun _ => ("", [], some "transient"),
   fun _ => ("ok", [], none)⟩

def exSubsC4 : List WebPushSubscription :=
  [⟨"ok", [], []⟩, ⟨"gone", [], []⟩, ⟨"err", [], []⟩, ⟨"rejected", [], []⟩]

def exSendC4 : WebPushSubscription → WebSendOutcome := fun s =>
  if s.endpoint = "ok" then .response 201
  else if s.endpoint = "gone" then .response 410
  else if s.endpoint = "err" then .transportErr "dns failure"
  else .response 500

/-- a stored row whose channel discriminator says web while only the
    mobile token payload is populated -/
def exCorruptRow : DeviceRecord := ⟨"web", "t1", none, 0⟩

end NotificationService

namespace NotificationService

/-! ## Theorems -/

/-- C8: the decode stage returns no request, skip = true and a non-nil
    error exactly on decode failure, and the parsed request with
    skip = false and nil error on success. -/
theorem transformer_skip_with_error (msgID : String)
    (dec : Except Err NotificationRequest) :
    (∀ e, dec = .error e →
      notificationRequestTransformer msgID dec =
        (none, true,
         some ("failed to unmarshal notification request from message " ++ msgID ++ ": " ++ e)))
    ∧ (∀ r, dec = .ok r →
      notificationRequestTransformer msgID dec = (some r, false, none)) := by
  constructor
  · intro e he
    subst he
    rfl
  · intro r hr
    subst hr
    rfl

/-- witness for C8 at concrete inputs -/
theorem transformer_skip_with_error_witness :
    notificationRequestTransformer "m1" (.error "bad json") =
      (none, true,
       some ("failed to unmarshal notification request from message " ++ "m1" ++ ": " ++ "bad json"))
    ∧ notificationRequestTransformer "m2" (.ok ⟨"urn:x:user:A", [], []⟩) =
      (some ⟨"urn:x:user:A", [], []⟩, false, none) :=
  ⟨(transformer_skip_with_error "m1" (.error "bad json")).1 "bad json" rfl,
   (transformer_skip_with_error "m2" (.ok ⟨"urn:x:user:A", [], []⟩)).2 ⟨"urn:x:user:A", [], []⟩ rfl⟩

/-- C2 counterexample: with valid auth and a decodable body, a failing
    mobile-unregister store operation still yields HTTP 204, not 500. -/
theorem unregister_fcm_storage_error_cex :
    unregisterFCMHandler (some "urn:x:user:A") (.ok ⟨"t1"⟩) (some "firestore unavailable") =
      (204, true)
    ∧ (204 : Nat) ≠ 500 := by
  exact ⟨rfl, by decide⟩

/-- C2 amended: for every authenticated request with a decodable body the
    mobile-unregister handler invokes the store operation and responds 204
    regardless of the store outcome; the store error is only logged and a
    500 is never produced from it. -/
theorem unregister_fcm_handler_spec (auth : Option String) (u : String)
    (body : Except Err RegisterFCMRequest) (req : RegisterFCMRequest)
    (storeErr : Option Err)
    (ha : auth = some u) (hb : body = .ok req) :
    unregisterFCMHandler auth body storeErr = (204, true) := by
  subst ha
  subst hb
  rfl

/-- witness for the amended C2 at a concrete failing store -/
theorem unregister_fcm_handler_spec_witness :
    unregisterFCMHandler (some "urn:x:user:A") (.ok ⟨"t1"⟩) (some "boom") = (204, true) :=
  unregister_fcm_handler_spec (some "urn:x:user:A") "urn:x:user:A"
    (.ok ⟨"t1"⟩) ⟨"t1"⟩ (some "boom") rfl rfl

/-- C1 counterexample: with both buckets non-empty and the mobile
    dispatcher failing retryably, the handler returns that error without
    invoking the web dispatcher on this invocation. -/
theorem processor_skips_web_after_fcm_error_cex :
    exEnvC1.fetchResult =
      .ok ⟨"urn:x:user:A", ["t1"], [⟨"https://push.example/abc", [1], [2]⟩]⟩
    ∧ (exEnvC1.fcmDispatch ["t1"]).2.2 = some "transient"
    ∧ (processMessage exEnvC1).webInvoked = false
    ∧ (processMessage exEnvC1).result = some "transient" :=
  ⟨rfl, rfl, rfl, rfl⟩

/-- C1 amended: with both buckets non-empty the mobile dispatcher is always
    invoked first; a retryable mobile error is returned immediately and the
    web dispatcher is NOT invoked on that invocation; the web dispatcher is
    invoked when the mobile dispatch returned no error, and its error
    becomes the handler result. -/
theorem processor_channel_order (env : ProcEnv) (req : NotificationRequest)
    (hf : env.fetchResult = .ok req)
    (hm : req.fcmTokens.length > 0)
    (hw : req.webSubscriptions.length > 0) :
    (processMessage env).fcmInvoked = true
    ∧ (∀ e, (env.fcmDispatch req.fcmTokens).2.2 = some e →
        (processMessage env).result = some e ∧ (processMessage env).webInvoked = false)
    ∧ ((env.fcmDispatch req.fcmTokens).2.2 = none →
        (processMessage env).webInvoked = true
        ∧ (processMessage env).result = (env.webDispatch req.webSubscriptions).2.2) := by
  unfold processMessage
  rw [hf]
  simp only [if_pos hm]
  cases hd : (env.fcmDispatch req.fcmTokens).2.2 with
  | some e =>
    refine ⟨rfl, fun x hx => ?_, fun hn => Option.noConfusion hn⟩
    injection hx with h
    subst h
    exact ⟨rfl, rfl⟩
  | none =>
    unfold procWebPath
    rw [if_pos hw]
    exact ⟨rfl, fun x hx => Option.noConfusion hx, fun _ => ⟨rfl, rfl⟩⟩

/-- witness for the amended C1 at the concrete environment -/
theorem processor_channel_order_witness :
    (processMessage exEnvC1).fcmInvoked = true
    ∧ (processMessage exEnvC1).result = some "transient"
    ∧ (processMessage exEnvC1).webInvoked = false := by
  have h := processor_channel_order exEnvC1
    ⟨"urn:x:user:A", ["t1"], [⟨"https://push.example/abc", [1], [2]⟩]⟩
    rfl (by decide) (by decide)
  exact ⟨h.1, (h.2.1 "transient" rfl).1, (h.2.1 "transient" rfl).2⟩

/-- the web dispatch loop computes: dead endpoints (404/410) in order, the
    count of 201 responses, and the count of everything that is not a 201 -/
theorem webDispatchLoop_eq (send : WebPushSubscription → WebSendOutcome) :
    ∀ subs, webDispatchLoop send subs =
      (subs.filter (fun s => webDead (send s)),
       (subs.filter (fun s => webCreated (send s))).length,
       (subs.filter (fun s => !webCreated (send s))).length)
  | [] => rfl
  | sub :: rest => by
    have ih := webDispatchLoop_eq send rest
    simp only [webDispatchLoop, ih, List.filter_cons]
    cases h : send sub with
    | transportErr e => simp [webDead, webCreated, h]
    | response st =>
      by_cases h201 : st = 201
      · simp [webDead, webCreated, h, h201]
      · by_cases hdead : st = 410 ∨ st = 404
        · simp [webDead, webCreated, h, h201, hdead]
        · simp [webDead, webCreated, h, h201, hdead]

/-- C4: the web dispatcher errors only on payload marshal failure; with a
    marshalled payload it never errors, the invalid list is exactly the
    subscriptions whose response status was 404 or 410 (in order), and the
    receipt counts 201 responses as the successes. -/
theorem web_dispatch_classification (subs : List WebPushSubscription)
    (send : WebPushSubscription → WebSendOutcome) (mr : Except Err Unit) :
    (∀ e, mr = .error e →
      webDispatch subs send mr = ("", [], some ("failed to marshal payload: " ++ e)))
    ∧ (mr = .ok () →
      (webDispatch subs send mr).2.2 = none
      ∧ (webDispatch subs send mr).2.1 = subs.filter (fun s => webDead (send s))
      ∧ (webDispatch subs send mr).1 =
          "success:" ++ toString (subs.filter (fun s => webCreated (send s))).length ++
          " invalid:" ++ toString (subs.filter (fun s => webDead (send s))).length ++
          " total_fail:" ++ toString (subs.filter (fun s => !webCreated (send s))).length) := by
  constructor
  · intro e he
    subst he
    rfl
  · intro hok
    subst hok
    simp [webDispatch, webDispatchLoop_eq]

/-- witness for C4: one 201, one 410, one transport failure, one 500; and a
    failing marshal on a second call -/
theorem web_dispatch_classification_witness :
    (webDispatch exSubsC4 exSendC4 (.ok ())).2.2 = none
    ∧ (webDispatch exSubsC4 exSendC4 (.ok ())).2.1 = [⟨"gone", [], []⟩]
    ∧ webDispatch [] exSendC4 (.error "cycle") =
        ("", [], some ("failed to marshal payload: " ++ "cycle")) := by
  have h := (web_dispatch_classification exSubsC4 exSendC4 (.ok ())).2 rfl
  refine ⟨h.1, ?_, (web_dispatch_classification [] exSendC4 (.error "cycle")).1 "cycle" rfl⟩
  rw [h.2.1]
  decide

/-- the FCM classification loop computes: fatally invalid tokens in
    response order and the count of transient (retry-eligible) failures -/
theorem fcmClassify_eq : ∀ pairs : List (String × FCMSendResponse),
    fcmClassify pairs =
      ((pairs.filter (fun p => !p.2.success && fcmFatalResp p.2)).map (fun p => p.1),
       (pairs.filter (fun p => !p.2.success && !fcmFatalResp p.2)).length)
  | [] => rfl
  | (t, resp) :: rest => by
    have ih := fcmClassify_eq rest
    cases hs : resp.success <;> cases hf : fcmFatalResp resp <;>
      simp [fcmClassify, ih, hs, hf, List.filter_cons]

theorem all_success_of_failureCount_zero (br : FCMBatchResponse)
    (h : fcmFailureCount br = 0) : ∀ r ∈ br.responses, r.success = true := by
  intro r hr
  cases hs : r.success with
  | true => rfl
  | false =>
    have hm : r ∈ br.responses.filter (fun x => !x.success) :=
      List.mem_filter.mpr ⟨hr, by simp [hs]⟩
    simp only [fcmFailureCount, List.length_eq_zero] at h
    rw [h] at hm
    cases hm

/-- characterization of the mobile Dispatch on a delivered batch response:
    any transient failure yields the retryable error and discards the
    invalid list; otherwise the fatal tokens are returned with nil error -/
theorem fcmDispatch_ok_eq (tokens : List String) (br : FCMBatchResponse)
    (h0 : ¬tokens.length = 0) :
    fcmDispatch tokens (.ok br) =
      (if ((tokens.zip br.responses).filter
            (fun p => !p.2.success && !fcmFatalResp p.2)).length > 0
       then ("", [],
         some ("batch had " ++
           toString ((tokens.zip br.responses).filter
             (fun p => !p.2.success && !fcmFatalResp p.2)).length ++ " retryable errors"))
       else ("success:" ++ toString (fcmSuccessCount br) ++ " invalid:" ++
               toString (((tokens.zip br.responses).filter
                 (fun p => !p.2.success && fcmFatalResp p.2)).map (fun p => p.1)).length,
             ((tokens.zip br.responses).filter
               (fun p => !p.2.success && fcmFatalResp p.2)).map (fun p => p.1),
             none)) := by
  unfold fcmDispatch
  rw [if_neg h0]
  dsimp only
  by_cases hfc : fcmFailureCount br > 0
  · rw [if_pos hfc, fcmClassify_eq]
  · rw [if_neg hfc]
    have hsucc : ∀ r ∈ br.responses, r.success = true :=
      all_success_of_failureCount_zero br (by omega)
    have hretry : (tokens.zip br.responses).filter
        (fun p => !p.2.success && !fcmFatalResp p.2) = [] :=
      List.filter_eq_nil_iff.mpr
        (fun p hp => by simp [hsucc p.2 (List.of_mem_zip hp).2])
    have hfat : (tokens.zip br.responses).filter
        (fun p => !p.2.success && fcmFatalResp p.2) = [] :=
      List.filter_eq_nil_iff.mpr
        (fun p hp => by simp [hsucc p.2 (List.of_mem_zip hp).2])
    simp [hretry, hfat]

/-- C3: the mobile Dispatch returns a non-nil error only when the transport
    itself failed (and was not whole-batch invalid-argument) or some
    per-token outcome is transient; when every per-token failure is fatal,
    it returns nil error with exactly the fatal tokens in invalidTokens. -/
theorem fcm_dispatch_retry_classification (tokens : List String)
    (sendResult : Except FCMTransportErr FCMBatchResponse) :
    (∀ x, (fcmDispatch tokens sendResult).2.2 = some x →
      (∃ te, sendResult = .error te ∧ te.isInvalidArgument = false)
      ∨ (∃ br, sendResult = .ok br ∧ ∃ p ∈ tokens.zip br.responses,
          p.2.success = false ∧ fcmFatalResp p.2 = false))
    ∧ (∀ br, sendResult = .ok br →
      (∀ p ∈ tokens.zip br.responses, p.2.success = false → fcmFatalResp p.2 = true) →
      (fcmDispatch tokens sendResult).2.2 = none
      ∧ (fcmDispatch tokens sendResult).2.1 =
          ((tokens.zip br.responses).filter (fun p => !p.2.success && fcmFatalResp p.2)).map
            (fun p => p.1)) := by
  constructor
  · intro x hx
    by_cases h0 : tokens.length = 0
    · unfold fcmDispatch at hx
      simp [h0] at hx
    · cases sendResult with
      | error te =>
        cases hIA : te.isInvalidArgument with
        | true =>
          unfold fcmDispatch at hx
          simp [h0, hIA] at hx
        | false => exact Or.inl ⟨te, rfl, hIA⟩
      | ok br =>
        refine Or.inr ⟨br, rfl, ?_⟩
        rw [fcmDispatch_ok_eq tokens br h0] at hx
        by_cases hr :
            ((tokens.zip br.responses).filter
              (fun p => !p.2.success && !fcmFatalResp p.2)).length > 0
        · obtain ⟨p, hp⟩ := List.exists_mem_of_length_pos hr
          have hmem := List.mem_filter.mp hp
          have hb := hmem.2
          simp only [Bool.and_eq_true, Bool.not_eq_true'] at hb
          exact ⟨p, hmem.1, hb.1, hb.2⟩
        · rw [if_neg hr] at hx
          cases hx
  · intro br hbr hall
    subst hbr
    by_cases h0 : tokens.length = 0
    · have ht : tokens = [] := List.length_eq_zero.mp h0
      subst ht
      unfold fcmDispatch
      simp
    · rw [fcmDispatch_ok_eq tokens br h0]
      have hretry :
          (tokens.zip br.responses).filter
            (fun p => !p.2.success && !fcmFatalResp p.2) = [] := by
        refine List.filter_eq_nil_iff.mpr ?_
        intro p hp
        cases hs : p.2.success with
        | true => simp [hs]
        | false =>
          have hft := hall p hp hs
          simp [hs, hft]
      rw [hretry]
      simp

/-- witness for C3: one success and one not-registered failure yields nil
    error and the fatal token reported for pruning -/
theorem fcm_dispatch_retry_classification_witness :
    (fcmDispatch ["t1", "t2"]
      (.ok ⟨[⟨true, .other⟩, ⟨false, .notRegistered⟩]⟩)).2.2 = none
    ∧ (fcmDispatch ["t1", "t2"]
      (.ok ⟨[⟨true, .other⟩, ⟨false, .notRegistered⟩]⟩)).2.1 = ["t2"] := by
  have h := (fcm_dispatch_retry_classification ["t1", "t2"]
    (.ok ⟨[⟨true, .other⟩, ⟨false, .notRegistered⟩]⟩)).2
    ⟨[⟨true, .other⟩, ⟨false, .notRegistered⟩]⟩ rfl (by decide)
  exact ⟨h.1, by rw [h.2]; decide⟩

/-- C9: a batch containing any transient per-token failure makes the mobile
    Dispatch return an empty invalidTokens list together with a retryable
    error, discarding fatally invalid tokens of the same batch. -/
theorem fcm_transient_batch_discards_invalid (tokens : List String)
    (br : FCMBatchResponse) (p : String × FCMSendResponse)
    (hp : p ∈ tokens.zip br.responses)
    (hfail : p.2.success = false) (htrans : fcmFatalResp p.2 = false) :
    (fcmDispatch tokens (.ok br)).2.1 = []
    ∧ ∃ e, (fcmDispatch tokens (.ok br)).2.2 = some e := by
  have h0 : ¬tokens.length = 0 := by
    intro h0
    have ht : tokens = [] := List.length_eq_zero.mp h0
    subst ht
    simp at hp
  have hr :
      ((tokens.zip br.responses).filter
        (fun q => !q.2.success && !fcmFatalResp q.2)).length > 0 := by
    have hm : p ∈ (tokens.zip br.responses).filter
        (fun q => !q.2.success && !fcmFatalResp q.2) :=
      List.mem_filter.mpr ⟨hp, by simp [hfail, htrans]⟩
    exact List.length_pos.mpr (List.ne_nil_of_mem hm)
  rw [fcmDispatch_ok_eq tokens br h0, if_pos hr]
  exact ⟨rfl, _, rfl⟩

/-- witness for C9: a fatal failure and a transient failure in one batch -/
theorem fcm_transient_batch_discards_invalid_witness :
    (fcmDispatch ["t1", "t2"]
      (.ok ⟨[⟨false, .notRegistered⟩, ⟨false, .other⟩]⟩)).2.1 = []
    ∧ ∃ e, (fcmDispatch ["t1", "t2"]
      (.ok ⟨[⟨false, .notRegistered⟩, ⟨false, .other⟩]⟩)).2.2 = some e :=
  fcm_transient_batch_discards_invalid ["t1", "t2"]
    ⟨[⟨false, .notRegistered⟩, ⟨false, .other⟩]⟩
    ("t2", ⟨false, .other⟩) (by decide) rfl rfl

/-- the Fetch loop on an error-free stream: recipient preserved, the two
    buckets extended by the sorting-hat classification of the decoded rows -/
theorem fetchLoop_clean : ∀ (items : List FetchItem) (acc : NotificationRequest),
    cleanStream items →
    fetchLoop acc items =
      .ok ⟨acc.recipientID, acc.fcmTokens ++ fcmBucket items,
           acc.webSubscriptions ++ webBucket items⟩
  | [], acc, _ => by
    simp [fetchLoop, fcmBucket, webBucket, docsOf]
  | .iterErr e :: rest, acc, hclean =>
    absurd (List.mem_cons_self _ _) (hclean e)
  | .doc none :: rest, acc, hclean => by
    have ih := fetchLoop_clean rest acc (fun e he => hclean e (List.mem_cons_of_mem _ he))
    simp only [fetchLoop]
    rw [ih]
    simp [fcmBucket, webBucket, docsOf, List.filterMap_cons]
  | .doc (some r) :: rest, acc, hclean => by
    have hcl : cleanStream rest := fun e he => hclean e (List.mem_cons_of_mem _ he)
    cases hw : isWebRow r with
    | true =>
      have hcond : (decide (r.platform = "web") && r.webSubscription.isSome) = true := by
        simpa [isWebRow] using hw
      have hparts := hcond
      rw [Bool.and_eq_true] at hparts
      obtain ⟨sub, hsub⟩ := Option.isSome_iff_exists.mp hparts.2
      have ih := fetchLoop_clean rest
        ⟨acc.recipientID, acc.fcmTokens,
         acc.webSubscriptions ++ [r.webSubscription.getD ⟨"", [], []⟩]⟩ hcl
      simp only [fetchLoop]
      rw [if_pos hcond, ih]
      simp [fcmBucket, webBucket, docsOf, List.filterMap_cons, List.filter_cons,
        hw, hsub, List.append_assoc]
    | false =>
      have hcond : ¬((decide (r.platform = "web") && r.webSubscription.isSome) = true) := by
        simpa [isWebRow] using hw
      by_cases htok : r.token = ""
      · have ih := fetchLoop_clean rest acc hcl
        simp only [fetchLoop]
        rw [if_neg hcond, if_neg (fun h => h htok), ih]
        simp [fcmBucket, webBucket, docsOf, List.filterMap_cons, List.filter_cons, hw, htok]
      · have ih := fetchLoop_clean rest
          ⟨acc.recipientID, acc.fcmTokens ++ [r.token], acc.webSubscriptions⟩ hcl
        simp only [fetchLoop]
        rw [if_neg hcond, if_pos htok, ih]
        simp [fcmBucket, webBucket, docsOf, List.filterMap_cons, List.filter_cons,
          hw, htok, List.append_assoc]

/-- the Fetch loop aborts with a wrapped error at the first iterator error -/
theorem fetchLoop_err : ∀ (pre : List FetchItem) (acc : NotificationRequest)
    (e : Err) (rest : List FetchItem), cleanStream pre →
    fetchLoop acc (pre ++ .iterErr e :: rest) =
      .error ("firestore iteration failed: " ++ e)
  | [], acc, e, rest, _ => by simp [fetchLoop]
  | .iterErr x :: pre, acc, e, rest, hclean =>
    absurd (List.mem_cons_self _ _) (hclean x)
  | .doc none :: pre, acc, e, rest, hclean => by
    have ih := fetchLoop_err pre acc e rest
      (fun x hx => hclean x (List.mem_cons_of_mem _ hx))
    simpa [fetchLoop] using ih
  | .doc (some r) :: pre, acc, e, rest, hclean => by
    have hcl : cleanStream pre := fun x hx => hclean x (List.mem_cons_of_mem _ hx)
    simp only [List.cons_append, fetchLoop]
    split
    · exact fetchLoop_err pre _ e rest hcl
    · split
      · exact fetchLoop_err pre _ e rest hcl
      · exact fetchLoop_err pre acc e rest hcl

/-- C6 counterexample: a row whose discriminator says web but whose only
    populated payload is the mobile token is NOT skipped: Fetch places the
    token in the mobile bucket. -/
theorem fetch_corrupt_row_cex :
    exCorruptRow.platform = "web" ∧ exCorruptRow.webSubscription = none
    ∧ exCorruptRow.token = "t1"
    ∧ storeFetch "urn:x:user:A" [.doc (some exCorruptRow)] =
        .ok ⟨"urn:x:user:A", ["t1"], []⟩
    ∧ (⟨"urn:x:user:A", ["t1"], []⟩ : NotificationRequest) ≠ ⟨"urn:x:user:A", [], []⟩ :=
  ⟨rfl, rfl, rfl, rfl, by decide⟩

/-- C6 amended: a user with no rows yields an empty recipient and nil
    error; on an error-free stream a decoded row goes to the web bucket iff
    its platform is web and its web payload is present, and otherwise goes
    to the mobile bucket iff its token is non-empty (so a web-discriminated
    row with a populated token is routed to the mobile bucket, not
    skipped); rows failing document decoding and rows with neither payload
    are skipped silently; an enumeration error aborts Fetch with an
    error. -/
theorem fetch_partition_spec (user : String) :
    (storeFetch user [] = .ok ⟨user, [], []⟩)
    ∧ (∀ items, cleanStream items →
        storeFetch user items = .ok ⟨user, fcmBucket items, webBucket items⟩)
    ∧ (∀ (pre : List FetchItem) (e : Err) (rest : List FetchItem), cleanStream pre →
        storeFetch user (pre ++ .iterErr e :: rest) =
          .error ("firestore iteration failed: " ++ e)) := by
  refine ⟨rfl, fun items hclean => ?_, fun pre e rest hclean => ?_⟩
  · have h := fetchLoop_clean items ⟨user, [], []⟩ hclean
    simpa [storeFetch] using h
  · exact fetchLoop_err pre ⟨user, [], []⟩ e rest hclean

/-- witness for the amended C6: a mobile row, a decode failure, a web row,
    a corrupt web row with a token, and a truncated stream -/
theorem fetch_partition_spec_witness :
    storeFetch "urn:x:user:A"
      [.doc (some ⟨"fcm", "tok-1", none, 1⟩), .doc none,
       .doc (some ⟨"web", "", some ⟨"https://push.example/abc", [1], [2]⟩, 2⟩),
       .doc (some exCorruptRow)] =
      .ok ⟨"urn:x:user:A",
           fcmBucket [.doc (some ⟨"fcm", "tok-1", none, 1⟩), .doc none,
             .doc (some ⟨"web", "", some ⟨"https://push.example/abc", [1], [2]⟩, 2⟩),
             .doc (some exCorruptRow)],
           webBucket [.doc (some ⟨"fcm", "tok-1", none, 1⟩), .doc none,
             .doc (some ⟨"web", "", some ⟨"https://push.example/abc", [1], [2]⟩, 2⟩),
             .doc (some exCorruptRow)]⟩
    ∧ storeFetch "urn:x:user:A" ([.doc (some ⟨"fcm", "tok-1", none, 1⟩)] ++
        .iterErr "rpc unavailable" :: []) =
      .error ("firestore iteration failed: " ++ "rpc unavailable") := by
  refine ⟨(fetch_partition_spec "urn:x:user:A").2.1 _ ?_,
    (fetch_partition_spec "urn:x:user:A").2.2 _ _ _ ?_⟩
  · intro e he
    simp [exCorruptRow] at he
  · intro e he
    simp at he

/-- filtering a key out then filtering for it yields nothing -/
theorem filter_key_of_filter_not (db : DB) (k : DocKey) :
    (db.filter (fun e => !decide (e.1 = k))).filter (fun e => decide (e.1 = k)) = [] :=
  List.filter_eq_nil_iff.mpr (fun a ha => by
    have h := (List.mem_filter.mp ha).2
    simp only [Bool.not_eq_true', decide_eq_false_iff_not] at h
    simp [h])

/-- a Firestore Set leaves exactly one row at its key -/
theorem rowsForKey_dbSet (db : DB) (k : DocKey) (v : DeviceRecord) :
    rowsForKey (dbSet db k v) k = [(k, v)] := by
  unfold rowsForKey dbSet
  rw [List.filter_append, filter_key_of_filter_not]
  simp

/-- a Firestore Delete leaves no row at its key -/
theorem rowsForKey_dbDelete (db : DB) (k : DocKey) :
    rowsForKey (dbDelete db k) k = [] :=
  filter_key_of_filter_not db k

theorem dbLookup_eq_head : ∀ (db : DB) (k : DocKey),
    dbLookup db k = (rowsForKey db k).head?.map (fun e => e.2)
  | [], k => rfl
  | e :: l, k => by
    have ih := dbLookup_eq_head l k
    by_cases h : e.1 = k
    · simp [dbLookup, rowsForKey, List.filter_cons, h]
    · simp [dbLookup, rowsForKey, List.filter_cons, h, ih]

/-- after one operation, the rows at its own key are exactly what the
    operation leaves there, independent of the prior contents -/
theorem rowsForKey_applyOp (db : DB) (u s : String) (op : RegOp) :
    rowsForKey (applyOp db u s op) (u, hashToken s) =
      ((opRecord s op).map (fun r => ((u, hashToken s), r))).toList := by
  cases op <;>
    simp [applyOp, opRecord, registerFCM, unregisterFCM, registerWeb, unregisterWeb,
      rowsForKey_dbSet, rowsForKey_dbDelete]

/-- C7: registry rows are keyed by (user, hashToken of the channel
    identifier): any non-empty sequence of register/unregister operations
    on the same (user, endpoint) leaves at that key exactly the single row
    of the last operation (upsert, no duplicates) or no row if the last
    operation was an unregister. -/
theorem registry_last_op_wins : ∀ (ops : List RegOp) (op : RegOp) (db : DB) (u s : String),
    ops.getLast? = some op →
    rowsForKey (applyOps db u s ops) (u, hashToken s) =
      ((opRecord s op).map (fun r => ((u, hashToken s), r))).toList
    ∧ dbLookup (applyOps db u s ops) (u, hashToken s) = opRecord s op
  | [], op, db, u, s, h => by cases h
  | [op0], op, db, u, s, h => by
    have heq : op0 = op := by simpa using h
    subst heq
    rw [show applyOps db u s [op0] = applyOp db u s op0 from rfl]
    have hrows := rowsForKey_applyOp db u s op0
    refine ⟨hrows, ?_⟩
    rw [dbLookup_eq_head, hrows]
    cases op0 <;> simp [opRecord]
  | op0 :: op1 :: rest, op, db, u, s, h => by
    have h2 : (op1 :: rest).getLast? = some op := by
      simpa [List.getLast?_cons_cons] using h
    exact registry_last_op_wins (op1 :: rest) op (applyOp db u s op0) u s h2

/-- witness for C7: a mixed sequence on one identifier converges to the
    final registration -/
theorem registry_last_op_wins_witness :
    rowsForKey
        (applyOps [] "urn:x:user:A" "tok-1"
          [.regFCM 1, .unregFCM, .regWeb [3] [4] 5, .unregWeb, .regFCM 2])
        ("urn:x:user:A", hashToken "tok-1") =
      [(("urn:x:user:A", hashToken "tok-1"),
        (⟨"fcm", "tok-1", none, 2⟩ : DeviceRecord))]
    ∧ dbLookup
        (applyOps [] "urn:x:user:A" "tok-1"
          [.regFCM 1, .unregFCM, .regWeb [3] [4] 5, .unregWeb, .regFCM 2])
        ("urn:x:user:A", hashToken "tok-1") =
      some ⟨"fcm", "tok-1", none, 2⟩ := by
  have h := registry_last_op_wins
    [.regFCM 1, .unregFCM, .regWeb [3] [4] 5, .unregWeb, .regFCM 2]
    (.regFCM 2) [] "urn:x:user:A" "tok-1" (by decide)
  exact ⟨h.1, h.2⟩

/-- C5: every cache-decorated write delegates to the wrapped registry
    first; a failed store write is returned unchanged with no cache delete;
    a successful store write always issues the cache delete, whose failure
    becomes the operation error even though the store write stuck. -/
theorem cached_write_invalidation (db newDb : DB) (c : CState) (u : String)
    (storeErr delErr : Option Err) :
    (∀ e, storeErr = some e →
        cachedWrite db newDb c u storeErr delErr = ⟨db, c, some e, false⟩)
    ∧ (storeErr = none →
        (cachedWrite db newDb c u none delErr).db = newDb
        ∧ (cachedWrite db newDb c u none delErr).delCalled = true
        ∧ (cachedWrite db newDb c u none delErr).err = delErr
        ∧ (delErr = none →
            (cachedWrite db newDb c u none delErr).cache = cacheDel c (cacheKey u))
        ∧ (∀ e, delErr = some e →
            (cachedWrite db newDb c u none delErr).cache = c))
    ∧ (∀ t ts, cachedRegisterFCM db c u t ts storeErr delErr =
        cachedWrite db (registerFCM db u t ts) c u storeErr delErr)
    ∧ (∀ sub ts, cachedRegisterWeb db c u sub ts storeErr delErr =
        cachedWrite db (registerWeb db u sub ts) c u storeErr delErr)
    ∧ (∀ t, cachedUnregisterFCM db c u t storeErr delErr =
        cachedWrite db (unregisterFCM db u t) c u storeErr delErr)
    ∧ (∀ ep, cachedUnregisterWeb db c u ep storeErr delErr =
        cachedWrite db (unregisterWeb db u ep) c u storeErr delErr) := by
  refine ⟨fun e he => by subst he; rfl, fun _ => ?_,
    fun t ts => rfl, fun sub ts => rfl, fun t => rfl, fun ep => rfl⟩
  cases delErr with
  | none => exact ⟨rfl, rfl, rfl, fun _ => rfl, fun e he => Option.noConfusion he⟩
  | some e => exact ⟨rfl, rfl, rfl, fun h => Option.noConfusion h, fun x _ => rfl⟩

/-- witness for C5: a failing store write, and a successful write with a
    failing cache delete -/
theorem cached_write_invalidation_witness :
    cachedWrite [] [] [] "urn:x:user:A" (some "store down") none =
      ⟨[], [], some "store down", false⟩
    ∧ (cachedWrite [] [] [] "urn:x:user:A" none (some "redis down")).err = some "redis down"
    ∧ (cachedWrite [] [] [] "urn:x:user:A" none (some "redis down")).delCalled = true := by
  have h1 := (cached_write_invalidation [] [] [] "urn:x:user:A" (some "store down") none).1
    "store down" rfl
  have h2 := (cached_write_invalidation [] [] [] "urn:x:user:A" none (some "redis down")).2.1 rfl
  exact ⟨h1, h2.2.2.1, h2.2.1⟩

theorem find?_key_filter_ne : ∀ (c : CState) (k k2 : String), k2 ≠ k →
    (c.filter (fun e => !decide (e.1 = k))).find? (fun e => decide (e.1 = k2)) =
      c.find? (fun e => decide (e.1 = k2))
  | [], _, _, _ => rfl
  | e :: l, k, k2, h => by
    have ih := find?_key_filter_ne l k k2 h
    by_cases hek : e.1 = k
    · have hek2 : ¬e.1 = k2 := fun hh => h (hh ▸ hek)
      rw [List.filter_cons_of_neg (by simp [hek]), List.find?_cons_of_neg l (by simp [hek2])]
      exact ih
    · rw [List.filter_cons_of_pos (by simp [hek])]
      by_cases hek2 : e.1 = k2
      · rw [List.find?_cons_of_pos _ (by simp [hek2]), List.find?_cons_of_pos _ (by simp [hek2])]
      · rw [List.find?_cons_of_neg _ (by simp [hek2]), List.find?_cons_of_neg _ (by simp [hek2])]
        exact ih

theorem cacheGet_filter_ne (c : CState) (k k2 : String) (h : k2 ≠ k) :
    cacheGet (c.filter (fun e => !decide (e.1 = k))) k2 = cacheGet c k2 := by
  unfold cacheGet
  rw [find?_key_filter_ne c k k2 h]

theorem cacheGet_set_ne (c : CState) (k k2 : String) (val : NotificationRequest)
    (h : k2 ≠ k) : cacheGet (cacheSet c k val) k2 = cacheGet c k2 := by
  unfold cacheGet cacheSet
  rw [List.find?_append, find?_key_filter_ne c k k2 h]
  have hkk : ¬k = k2 := fun hh => h hh.symm
  have hsingle : List.find? (fun e => decide (e.1 = k2)) [(k, val)] = none := by
    simp [hkk]
  rw [hsingle]
  cases List.find? (fun e => decide (e.1 = k2)) c <;> rfl

theorem userDocs_append (a b : DB) (v : String) :
    userDocs (a ++ b) v = userDocs a v ++ userDocs b v := by
  simp [userDocs, List.filter_append]

theorem filter_user_filter_key_ne : ∀ (db : DB) (k : DocKey) (v : String), ¬k.1 = v →
    (db.filter (fun e => !decide (e.1 = k))).filter (fun e => decide (e.1.1 = v)) =
      db.filter (fun e => decide (e.1.1 = v))
  | [], _, _, _ => rfl
  | e :: l, k, v, h => by
    have ih := filter_user_filter_key_ne l k v h
    by_cases hek : e.1 = k
    · have hv : ¬e.1.1 = v := by rw [hek]; exact h
      rw [List.filter_cons_of_neg (by simp [hek]), List.filter_cons_of_neg (by simp [hv])]
      exact ih
    · rw [List.filter_cons_of_pos (by simp [hek])]
      by_cases hv : e.1.1 = v
      · rw [List.filter_cons_of_pos (by simp [hv]), List.filter_cons_of_pos (by simp [hv]), ih]
      · rw [List.filter_cons_of_neg (by simp [hv]), List.filter_cons_of_neg (by simp [hv])]
        exact ih

theorem userDocs_filter_key_ne (db : DB) (k : DocKey) (v : String) (h : ¬k.1 = v) :
    userDocs (db.filter (fun e => !decide (e.1 = k))) v = userDocs db v := by
  unfold userDocs
  exact filter_user_filter_key_ne db k v h

theorem userDocs_dbSet_ne (db : DB) (k : DocKey) (r : DeviceRecord) (v : String)
    (h : ¬k.1 = v) : userDocs (dbSet db k r) v = userDocs db v := by
  rw [show dbSet db k r = db.filter (fun e => !decide (e.1 = k)) ++ [(k, r)] from rfl,
    userDocs_append, userDocs_filter_key_ne db k v h]
  have hone : userDocs [(k, r)] v = [] := by simp [userDocs, List.filter_cons, h]
  rw [hone, List.append_nil]

theorem userDocs_dbDelete_ne (db : DB) (k : DocKey) (v : String) (h : ¬k.1 = v) :
    userDocs (dbDelete db k) v = userDocs db v :=
  userDocs_filter_key_ne db k v h

theorem cacheKey_ne_of_ne (u v : String) (h : v ≠ u) : cacheKey v ≠ cacheKey u := by
  intro hk
  apply h
  have hd : (cacheKey v).data = (cacheKey u).data := by rw [hk]
  simp only [cacheKey, String.data_append] at hd
  exact String.ext (List.append_cancel_left hd)

/-- frame of the shared write path: only the user own rows and cache key
    can change -/
theorem cachedWrite_frame (db newDb : DB) (c : CState) (u v : String)
    (storeErr delErr : Option Err)
    (hdb : userDocs newDb v = userDocs db v) (hkey : cacheKey v ≠ cacheKey u) :
    userDocs (cachedWrite db newDb c u storeErr delErr).db v = userDocs db v
    ∧ cacheGet (cachedWrite db newDb c u storeErr delErr).cache (cacheKey v) =
        cacheGet c (cacheKey v) := by
  cases storeErr with
  | some e => exact ⟨rfl, rfl⟩
  | none =>
    cases delErr with
    | some e => exact ⟨hdb, rfl⟩
    | none => exact ⟨hdb, cacheGet_filter_ne c (cacheKey u) (cacheKey v) hkey⟩

/-- C10: every registry or cache operation performed for user u leaves the
    stored device rows and the cache entry of every other user v (whose
    canonical string differs) unchanged — for all four cache-decorated
    writes and for the read-aside Fetch. -/
theorem user_isolation (db : DB) (c : CState) (u v t endpoint : String)
    (sub : WebPushSubscription) (ts : Nat) (storeErr delErr : Option Err)
    (hne : v ≠ u) :
    (userDocs (cachedRegisterFCM db c u t ts storeErr delErr).db v = userDocs db v
      ∧ cacheGet (cachedRegisterFCM db c u t ts storeErr delErr).cache (cacheKey v) =
          cacheGet c (cacheKey v))
    ∧ (userDocs (cachedRegisterWeb db c u sub ts storeErr delErr).db v = userDocs db v
      ∧ cacheGet (cachedRegisterWeb db c u sub ts storeErr delErr).cache (cacheKey v) =
          cacheGet c (cacheKey v))
    ∧ (userDocs (cachedUnregisterFCM db c u t storeErr delErr).db v = userDocs db v
      ∧ cacheGet (cachedUnregisterFCM db c u t storeErr delErr).cache (cacheKey v) =
          cacheGet c (cacheKey v))
    ∧ (userDocs (cachedUnregisterWeb db c u endpoint storeErr delErr).db v = userDocs db v
      ∧ cacheGet (cachedUnregisterWeb db c u endpoint storeErr delErr).cache (cacheKey v) =
          cacheGet c (cacheKey v))
    ∧ cacheGet (cachedFetch db c u).2 (cacheKey v) = cacheGet c (cacheKey v) := by
  have hkey := cacheKey_ne_of_ne u v hne
  have hu : ∀ s, ¬((u, hashToken s) : DocKey).1 = v := fun s hh => hne hh.symm
  refine ⟨cachedWrite_frame db _ c u v storeErr delErr
      (userDocs_dbSet_ne db (u, hashToken t) _ v (hu t)) hkey,
    cachedWrite_frame db _ c u v storeErr delErr
      (userDocs_dbSet_ne db (u, hashToken sub.endpoint) _ v (hu sub.endpoint)) hkey,
    cachedWrite_frame db _ c u v storeErr delErr
      (userDocs_dbDelete_ne db (u, hashToken t) v (hu t)) hkey,
    cachedWrite_frame db _ c u v storeErr delErr
      (userDocs_dbDelete_ne db (u, hashToken endpoint) v (hu endpoint)) hkey,
    ?_⟩
  unfold cachedFetch
  cases hg : cacheGet c (cacheKey u) with
  | some cached => rfl
  | none =>
    cases hf : firestoreFetch db u with
    | error e => rfl
    | ok fresh => exact cacheGet_set_ne c (cacheKey u) (cacheKey v) fresh hkey

/-- witness for C10: an unregister and a Fetch for user A do not touch the
    rows or cache entry of user B -/
theorem user_isolation_witness :
    userDocs (cachedUnregisterFCM [] [] "urn:x:user:A" "t" none none).db "urn:x:user:B" =
      userDocs [] "urn:x:user:B"
    ∧ cacheGet (cachedFetch [] [] "urn:x:user:A").2 (cacheKey "urn:x:user:B") =
      cacheGet [] (cacheKey "urn:x:user:B") := by
  have h := user_isolation [] [] "urn:x:user:A" "urn:x:user:B" "t" "ep"
    ⟨"ep", [], []⟩ 0 none none (by decide)
  exact ⟨h.2.2.1.1, h.2.2.2.2⟩

end NotificationService